import Mathlib

/-!
# Verification of the water-sources AR map application

Shallow embedding of the core logic of the repository (two JS variants of
`app.js`: the optimized one under `src/app.js`, called V1 below, and the
older one under `src/unnamed/part_000`, called V2 below).

JS numbers are modelled as exact rationals (`ℚ`), timestamps as integers
(`ℤ`, milliseconds), and the Leaflet great-circle helpers
(`userLocation.distanceTo`, the `atan2` bearing) as abstract measurement
functions supplied as parameters, since they are external library /
`Math` calls; everything the repository itself computes is transcribed.
-/

namespace Water

/-!
## Angle normalization (drawAR, app.js lines 581-583 and part_000 lines 402-404)

```js
let relativeAngle = bearing - heading;
while (relativeAngle <= -180) relativeAngle += 360;
while (relativeAngle > 180) relativeAngle -= 360;
```
-/

/-- The first wrap-around loop: `while (relativeAngle <= -180) relativeAngle += 360`. -/
def wrapUp (x : ℚ) : ℚ :=
  if h : x ≤ -180 then wrapUp (x + 360) else x
termination_by (⌈-x⌉).toNat
decreasing_by
  have h180 : (180 : ℚ) ≤ -x := by linarith
  have hc : (180 : ℤ) ≤ ⌈-x⌉ := by
    have := Int.ceil_le_ceil (α := ℚ) h180
    simpa using this
  have he : ⌈-(x + 360)⌉ = ⌈-x⌉ - 360 := by
    have hx : -(x + 360) = -x + ((-360 : ℤ) : ℚ) := by push_cast; ring
    rw [hx, Int.ceil_add_int]; ring
  omega

/-- The second wrap-around loop: `while (relativeAngle > 180) relativeAngle -= 360`. -/
def wrapDown (x : ℚ) : ℚ :=
  if h : 180 < x then wrapDown (x - 360) else x
termination_by (⌈x⌉).toNat
decreasing_by
  have hc : (180 : ℤ) ≤ ⌈x⌉ := by
    have := Int.ceil_le_ceil (α := ℚ) (le_of_lt h)
    simpa using this
  have he : ⌈x - 360⌉ = ⌈x⌉ - 360 := by
    have hx : x - 360 = x + ((-360 : ℤ) : ℚ) := by push_cast; ring
    rw [hx, Int.ceil_add_int]; ring
  omega

/-- Both loops in sequence, as executed by `drawAR` on `bearing - heading`. -/
def normalizeAngle (x : ℚ) : ℚ := wrapDown (wrapUp x)

theorem wrapUp_spec (x : ℚ) : -180 < wrapUp x ∧ ∃ k : ℤ, wrapUp x = x + 360 * k := by
  by_cases h : x ≤ -180
  · obtain ⟨hlt, k, hk⟩ := wrapUp_spec (x + 360)
    rw [wrapUp, dif_pos h]
    refine ⟨hlt, k + 1, ?_⟩
    rw [hk]; push_cast; ring
  · rw [wrapUp, dif_neg h]
    exact ⟨by linarith [not_le.mp h], 0, by ring⟩
termination_by (⌈-x⌉).toNat
decreasing_by
  have h180 : (180 : ℚ) ≤ -x := by linarith
  have hc : (180 : ℤ) ≤ ⌈-x⌉ := by
    have := Int.ceil_le_ceil (α := ℚ) h180
    simpa using this
  have he : ⌈-(x + 360)⌉ = ⌈-x⌉ - 360 := by
    have hx : -(x + 360) = -x + ((-360 : ℤ) : ℚ) := by push_cast; ring
    rw [hx, Int.ceil_add_int]; ring
  omega

theorem wrapDown_spec (x : ℚ) :
    wrapDown x ≤ 180 ∧ (-180 < x → -180 < wrapDown x) ∧ ∃ k : ℤ, wrapDown x = x - 360 * k := by
  by_cases h : 180 < x
  · obtain ⟨hle, hgt, k, hk⟩ := wrapDown_spec (x - 360)
    rw [wrapDown, dif_pos h]
    refine ⟨hle, fun _ => hgt (by linarith), k + 1, ?_⟩
    rw [hk]; push_cast; ring
  · rw [wrapDown, dif_neg h]
    exact ⟨le_of_not_lt h, fun hx => hx, 0, by ring⟩
termination_by (⌈x⌉).toNat
decreasing_by
  have hc : (180 : ℤ) ≤ ⌈x⌉ := by
    have := Int.ceil_le_ceil (α := ℚ) (le_of_lt h)
    simpa using this
  have he : ⌈x - 360⌉ = ⌈x⌉ - 360 := by
    have hx : x - 360 = x + ((-360 : ℤ) : ℚ) := by push_cast; ring
    rw [hx, Int.ceil_add_int]; ring
  omega

theorem normalizeAngle_mem (x : ℚ) : -180 < normalizeAngle x ∧ normalizeAngle x ≤ 180 := by
  obtain ⟨hu, _, _⟩ := wrapUp_spec x
  obtain ⟨hle, hgt, _⟩ := wrapDown_spec (wrapUp x)
  exact ⟨hgt hu, hle⟩

theorem normalizeAngle_congr (x : ℚ) : ∃ k : ℤ, normalizeAngle x = x + 360 * k := by
  obtain ⟨_, k₁, hk₁⟩ := wrapUp_spec x
  obtain ⟨_, _, k₂, hk₂⟩ := wrapDown_spec (wrapUp x)
  refine ⟨k₁ - k₂, ?_⟩
  rw [normalizeAngle, hk₂, hk₁]; push_cast; ring

theorem normalizeAngle_eq_of_mem {x : ℚ} (h₁ : -180 < x) (h₂ : x ≤ 180) :
    normalizeAngle x = x := by
  rw [normalizeAngle, wrapUp, dif_neg (by linarith), wrapDown, dif_neg (by linarith)]

/-- C6: the relative-angle wrap-around loop of `drawAR` always lands in the
half-open interval `(-180, 180]`, and its result is unchanged by shifting the
input by any integer multiple of 360. -/
theorem normalizeAngle_range_periodic (x : ℚ) (k : ℤ) :
    (-180 < normalizeAngle x ∧ normalizeAngle x ≤ 180) ∧
      normalizeAngle (x + 360 * k) = normalizeAngle x := by
  refine ⟨normalizeAngle_mem x, ?_⟩
  obtain ⟨ha₁, ha₂⟩ := normalizeAngle_mem (x + 360 * k)
  obtain ⟨hb₁, hb₂⟩ := normalizeAngle_mem x
  obtain ⟨ka, hka⟩ := normalizeAngle_congr (x + 360 * k)
  obtain ⟨kb, hkb⟩ := normalizeAngle_congr x
  have hdiff : normalizeAngle (x + 360 * k) - normalizeAngle x = 360 * ((k + ka - kb : ℤ) : ℚ) := by
    rw [hka, hkb]; push_cast; ring
  have hm : (k + ka - kb : ℤ) = 0 := by
    have h1 : ((k + ka - kb : ℤ) : ℚ) < 1 := by nlinarith [hdiff]
    have h2 : (-1 : ℚ) < ((k + ka - kb : ℤ) : ℚ) := by nlinarith [hdiff]
    have h1' : (k + ka - kb : ℤ) < 1 := by exact_mod_cast h1
    have h2' : (-1 : ℤ) < k + ka - kb := by exact_mod_cast h2
    omega
  have := hdiff
  rw [hm] at this
  push_cast at this
  linarith

/-!
## Data model

`Fountain` is one Overpass element as `drawAR` / `renderMarkers` see it:
`pos` is the `lat ?? center?.lat` / `lon ?? center?.lon` coalescing result
(`none` when both are missing), `name` is `tags?.name`.
-/

structure Fountain where
  id : ℤ
  pos : Option (ℚ × ℚ)
  name : Option String
deriving DecidableEq

/-!
## ARProjector (drawAR, app.js lines 553-643; identically part_000 lines 373-468)

The pipeline maps each fountain to `{name, dist, relativeAngle, id, lat, lon}`,
discarding missing positions and `dist > MAX_AR_DISTANCE`, filters by
`|relativeAngle| <= HFOV_DEGREES / 2`, sorts ascending by `dist`
(`(a, b) => a.dist - b.dist`; JS sort is stable, modelled by insertion sort)
and keeps the first 5. The distance and bearing computations call Leaflet /
`Math` (haversine `distanceTo`, `atan2`), external to the repository, so they
enter the model as the abstract functions `distTo` and `bearingTo` from a
position to a number; the relative-angle loop is `normalizeAngle` above.
-/

def HFOV_DEGREES : ℚ := 75
def MAX_AR_DISTANCE : ℚ := 1000

structure ARMarker where
  name : String
  dist : ℚ
  relativeAngle : ℚ
  id : ℤ
deriving DecidableEq

/-- The body of the `.map` callback in `drawAR` (returns `null` as `none`). -/
def projectOne (distTo bearingTo : ℚ × ℚ → ℚ) (heading : ℚ) (f : Fountain) : Option ARMarker :=
  match f.pos with
  | none => none
  | some p =>
      let dist := distTo p
      if MAX_AR_DISTANCE < dist then none
      else some { name := f.name.getD "Drinking water"
                  dist := dist
                  relativeAngle := normalizeAngle (bearingTo p - heading)
                  id := f.id }

/-- The sort comparator `(a, b) => a.dist - b.dist` as a relation. -/
def distLe (a b : ARMarker) : Prop := a.dist ≤ b.dist

instance : DecidableRel distLe := fun a b => inferInstanceAs (Decidable (a.dist ≤ b.dist))

instance : IsTotal ARMarker distLe := ⟨fun a b => le_total a.dist b.dist⟩

instance : IsTrans ARMarker distLe := ⟨fun _ _ _ hab hbc => le_trans hab hbc⟩

/-- The `arFountains` pipeline of `drawAR`: map, filter, sort, `slice(0, 5)`. -/
def arFountains (distTo bearingTo : ℚ × ℚ → ℚ) (heading : ℚ) (fountains : List Fountain) :
    List ARMarker :=
  (List.insertionSort distLe
      ((fountains.filterMap (projectOne distTo bearingTo heading)).filter
        (fun f => |f.relativeAngle| ≤ HFOV_DEGREES / 2))).take 5

/-- C1: for every heading, user position (via its measurement functions) and
fountain list, `drawAR` renders at most 5 markers, in non-decreasing distance
order, and every rendered marker has `|relativeAngle| ≤ HFOV_DEGREES / 2 = 37.5`
and `dist ≤ MAX_AR_DISTANCE = 1000`. -/
theorem ar_projector_output_bounds (distTo bearingTo : ℚ × ℚ → ℚ) (heading : ℚ)
    (fountains : List Fountain) :
    (arFountains distTo bearingTo heading fountains).length ≤ 5 ∧
      (arFountains distTo bearingTo heading fountains).Sorted distLe ∧
      ∀ m ∈ arFountains distTo bearingTo heading fountains,
        |m.relativeAngle| ≤ HFOV_DEGREES / 2 ∧ m.dist ≤ MAX_AR_DISTANCE := by
  refine ⟨?_, ?_, ?_⟩
  · rw [arFountains, List.length_take]
    exact min_le_left _ _
  · exact (List.sorted_insertionSort distLe _).sublist (List.take_sublist _ _)
  · intro m hm
    rw [arFountains] at hm
    have hm₁ := List.take_subset _ _ hm
    rw [List.mem_insertionSort, List.mem_filter] at hm₁
    obtain ⟨hmem, hangle⟩ := hm₁
    refine ⟨by simpa using of_decide_eq_true hangle, ?_⟩
    rw [List.mem_filterMap] at hmem
    obtain ⟨f, _, hf⟩ := hmem
    rw [projectOne] at hf
    rcases hpos : f.pos with _ | p
    · rw [hpos] at hf; exact absurd hf (by simp)
    · rw [hpos] at hf
      simp only at hf
      split at hf
      · exact absurd hf (by simp)
      · rename_i hdist
        have : m.dist = distTo p := by
          cases hf; rfl
        rw [this]
        exact le_of_not_lt hdist

def witnessFountain : Fountain := { id := 1, pos := some (0, 0), name := none }

theorem ar_projector_output_bounds_witness :
    |(ARMarker.mk "Drinking water" 111 0 1).relativeAngle| ≤ HFOV_DEGREES / 2 ∧
      (ARMarker.mk "Drinking water" 111 0 1).dist ≤ MAX_AR_DISTANCE := by
  have hmem : ARMarker.mk "Drinking water" 111 0 1 ∈
      arFountains (fun _ => 111) (fun _ => 0) 0 [witnessFountain] := by
    have hz : normalizeAngle (0 : ℚ) = 0 :=
      normalizeAngle_eq_of_mem (by norm_num) (by norm_num)
    simp only [arFountains, projectOne, witnessFountain, List.filterMap, MAX_AR_DISTANCE,
      HFOV_DEGREES]
    norm_num [hz, List.filter, List.insertionSort, List.orderedInsert]
  exact (ar_projector_output_bounds (fun _ => 111) (fun _ => 0) 0 [witnessFountain]).2.2 _ hmem

/-!
## Distance-to-screen mapping (drawAR, app.js lines 598-606)

```js
const canvasBottomY = arCanvas.height - 80;
const projectionMaxY = arCanvas.height * 0.3;
const yRatio = Math.max(0, Math.min(1, 1 - (f.dist / MAX_AR_DISTANCE)));
const screenY = canvasBottomY - (yRatio * (canvasBottomY - projectionMaxY));
const iconRadius = 10 + (8 * yRatio);
```
-/

def canvasBottomY (canvasHeight : ℚ) : ℚ := canvasHeight - 80

def projectionMaxY (canvasHeight : ℚ) : ℚ := canvasHeight * (3 / 10)

def yRatioOf (dist : ℚ) : ℚ := max 0 (min 1 (1 - dist / MAX_AR_DISTANCE))

def screenY (canvasHeight dist : ℚ) : ℚ :=
  canvasBottomY canvasHeight - yRatioOf dist * (canvasBottomY canvasHeight - projectionMaxY canvasHeight)

def iconRadius (dist : ℚ) : ℚ := 10 + 8 * yRatioOf dist

theorem yRatioOf_eq {d : ℚ} (h0 : 0 ≤ d) (h1 : d ≤ MAX_AR_DISTANCE) :
    yRatioOf d = 1 - d / 1000 := by
  rw [MAX_AR_DISTANCE] at h1
  rw [yRatioOf, MAX_AR_DISTANCE, min_eq_right (by linarith), max_eq_right (by linarith)]

theorem yRatioOf_antitone {d₁ d₂ : ℚ} (h : d₁ ≤ d₂) : yRatioOf d₂ ≤ yRatioOf d₁ := by
  rw [yRatioOf, yRatioOf, MAX_AR_DISTANCE]
  have : 1 - d₂ / 1000 ≤ 1 - d₁ / 1000 := by linarith
  exact max_le_max le_rfl (min_le_min le_rfl this)

theorem yRatioOf_nonneg (d : ℚ) : 0 ≤ yRatioOf d := le_max_left 0 _

theorem yRatioOf_le_one (d : ℚ) : yRatioOf d ≤ 1 :=
  max_le (by norm_num) (min_le_left 1 _)

/-- C2 counterexample: on a 1000-pixel canvas, the point at 100 m (strictly
closer) is drawn at `screenY = 362` while the point at 900 m is drawn at
`screenY = 858`; canvas y grows downward, so the closer point renders strictly
HIGHER on screen, not lower, and a point at exactly `MAX_AR_DISTANCE` is drawn
at the bottom anchor `canvasBottomY = 920`, not at the upper projection line
`projectionMaxY = 300`. -/
theorem screenY_closer_renders_higher :
    screenY 1000 100 < screenY 1000 900 ∧
      screenY 1000 1000 = canvasBottomY 1000 ∧
      canvasBottomY 1000 ≠ projectionMaxY 1000 := by
  refine ⟨?_, ?_, ?_⟩ <;>
    norm_num [screenY, yRatioOf, canvasBottomY, projectionMaxY, MAX_AR_DISTANCE]

/-- C2 amended: in `drawAR`'s vertical mapping a strictly closer point renders
strictly HIGHER on screen (strictly smaller canvas `screenY`) and with a
strictly larger icon than a strictly farther point (both within range, on a
canvas whose bottom anchor lies below the upper projection line); a point at
exactly `MAX_AR_DISTANCE` renders at the fixed BOTTOM anchor
`canvasBottomY = height - 80` with the minimum icon radius 10; and the mapping
is monotonic in distance: `screenY` is non-decreasing and the icon radius
non-increasing as distance grows. -/
theorem screenY_iconRadius_monotone (h d₁ d₂ : ℚ)
    (hpb : projectionMaxY h < canvasBottomY h)
    (h0 : 0 ≤ d₁) (h12 : d₁ < d₂) (h2 : d₂ ≤ MAX_AR_DISTANCE) :
    (screenY h d₁ < screenY h d₂ ∧ iconRadius d₂ < iconRadius d₁) ∧
      (screenY h MAX_AR_DISTANCE = canvasBottomY h ∧ iconRadius MAX_AR_DISTANCE = 10 ∧
        ∀ d, 10 ≤ iconRadius d ∧ iconRadius d ≤ 18) ∧
      (∀ e₁ e₂ : ℚ, e₁ ≤ e₂ → screenY h e₁ ≤ screenY h e₂ ∧ iconRadius e₂ ≤ iconRadius e₁) := by
  have hstrict : yRatioOf d₂ < yRatioOf d₁ := by
    rw [yRatioOf_eq h0 (le_of_lt (lt_of_lt_of_le h12 h2)),
      yRatioOf_eq (by linarith) h2]
    have : d₁ / 1000 < d₂ / 1000 := by linarith
    linarith
  refine ⟨⟨?_, ?_⟩, ⟨?_, ?_, ?_⟩, ?_⟩
  · rw [screenY, screenY]
    have := mul_lt_mul_of_pos_right hstrict (sub_pos.mpr hpb)
    linarith
  · rw [iconRadius, iconRadius]; linarith
  · rw [screenY, yRatioOf, MAX_AR_DISTANCE]
    norm_num
  · rw [iconRadius, yRatioOf, MAX_AR_DISTANCE]
    norm_num
  · intro d
    have h₁ := yRatioOf_nonneg d
    have h₂ := yRatioOf_le_one d
    rw [iconRadius]
    constructor <;> linarith
  · intro e₁ e₂ he
    have hy := yRatioOf_antitone he
    constructor
    · rw [screenY, screenY]
      have := mul_le_mul_of_nonneg_right hy (le_of_lt (sub_pos.mpr hpb))
      linarith
    · rw [iconRadius, iconRadius]; linarith

theorem screenY_iconRadius_monotone_witness :
    (screenY 1000 100 < screenY 1000 900 ∧ iconRadius 900 < iconRadius 100) ∧
      (screenY 1000 MAX_AR_DISTANCE = canvasBottomY 1000 ∧ iconRadius MAX_AR_DISTANCE = 10 ∧
        ∀ d, 10 ≤ iconRadius d ∧ iconRadius d ≤ 18) ∧
      (∀ e₁ e₂ : ℚ, e₁ ≤ e₂ → screenY 1000 e₁ ≤ screenY 1000 e₂ ∧ iconRadius e₂ ≤ iconRadius e₁) :=
  screenY_iconRadius_monotone 1000 100 900
    (by norm_num [projectionMaxY, canvasBottomY]) (by norm_num) (by norm_num)
    (by norm_num [MAX_AR_DISTANCE])

/-!
## Fetch activity (fetchNearby / fetchFountains)

Interleaving model of the single-threaded async fetch functions.

V1 (app.js lines 148-235): each fetch function synchronously runs
`if (currentFetchController) currentFetchController.abort();
currentFetchController = new AbortController();` and issues its request, then
suspends; its catch/finally continuation runs later and unconditionally
executes `currentFetchController = null`.

V2 (part_000 lines 82-120): the fetch functions have no AbortController and
never cancel anything.

Events: `start` is the synchronous prologue of a new fetch (either
`fetchNearby` or `fetchFountains` — both have the same prologue);
`respond i` is request `i`'s response arriving with its handler and `finally`;
`runEpilogue i` is the deferred catch/finally of a fetch that was aborted.
`inFlight` holds requests that were issued and have neither settled nor been
aborted; `abortedIds` records every id ever aborted.
-/

inductive FetchEvent where
  | start
  | respond (i : ℕ)
  | runEpilogue (i : ℕ)
deriving DecidableEq

structure FetchStateM where
  ctrl : Option ℕ
  inFlight : List ℕ
  pendingAborted : List ℕ
  abortedIds : List ℕ
  nextId : ℕ
deriving DecidableEq

def initFetchState : FetchStateM :=
  { ctrl := none, inFlight := [], pendingAborted := [], abortedIds := [], nextId := 0 }

def stepV1 (s : FetchStateM) : FetchEvent → FetchStateM
  | .start =>
      let s₁ := match s.ctrl with
        | some c => { s with inFlight := s.inFlight.erase c
                             pendingAborted := s.pendingAborted ++ [c]
                             abortedIds := s.abortedIds ++ [c] }
        | none => s
      { s₁ with ctrl := some s.nextId
                inFlight := s₁.inFlight ++ [s.nextId]
                nextId := s.nextId + 1 }
  | .respond i =>
      if i ∈ s.inFlight then { s with inFlight := s.inFlight.erase i, ctrl := none } else s
  | .runEpilogue i =>
      if i ∈ s.pendingAborted then
        { s with pendingAborted := s.pendingAborted.erase i, ctrl := none }
      else s

def stepV2 (s : FetchStateM) : FetchEvent → FetchStateM
  | .start => { s with inFlight := s.inFlight ++ [s.nextId], nextId := s.nextId + 1 }
  | .respond i => if i ∈ s.inFlight then { s with inFlight := s.inFlight.erase i } else s
  | .runEpilogue _ => s

def runV1 (events : List FetchEvent) : FetchStateM := events.foldl stepV1 initFetchState

def runV2 (events : List FetchEvent) : FetchStateM := events.foldl stepV2 initFetchState

/-- C3 counterexample. V2: two bare starts leave requests 0 and 1 in flight
simultaneously and nothing is ever aborted. V1: fetch 0 starts; fetch 1 starts
and aborts 0; aborted fetch 0's `finally` then nulls the shared
`currentFetchController` (clobbering fetch 1's controller); fetch 2 then starts
seeing `null`, aborts nothing, and issues its request while fetch 1 is still in
flight — requests 1 and 2 are in flight together and 1 was never aborted. -/
theorem two_fetches_in_flight :
    ((runV2 [.start, .start]).inFlight = [0, 1] ∧ (runV2 [.start, .start]).abortedIds = []) ∧
      ((runV1 [.start, .start, .runEpilogue 0, .start]).inFlight = [1, 2] ∧
        (runV1 [.start, .start, .runEpilogue 0, .start]).abortedIds = [0]) := by
  decide

/-- C3 amended: only the optimized variant (app.js) cancels predecessors, and
only through the shared `currentFetchController` reference: whenever a fetch
starts while `currentFetchController` holds a (distinct, not-yet-reissued)
controller, that predecessor is aborted — removed from flight and recorded
aborted — before the new request enters flight; the part_000 variant never
aborts anything. (As the counterexample shows, the V1 guarantee covers only
the controller the shared variable still references, so two fetches can
nevertheless end up in flight after an aborted fetch's `finally` clears it.) -/
theorem fetch_start_aborts_stored_controller :
    (∀ (s : FetchStateM) (c : ℕ), s.ctrl = some c → s.inFlight.Nodup → c < s.nextId →
        c ∉ (stepV1 s .start).inFlight ∧ c ∈ (stepV1 s .start).abortedIds ∧
          s.nextId ∈ (stepV1 s .start).inFlight) ∧
      ∀ (s : FetchStateM) (e : FetchEvent), (stepV2 s e).abortedIds = s.abortedIds := by
  constructor
  · intro s c hc hnd hlt
    simp only [stepV1, hc]
    refine ⟨?_, by simp, by simp⟩
    simp only [List.mem_append, List.mem_singleton]
    rintro (hmem | hmem)
    · exact (List.Nodup.mem_erase_iff hnd).mp hmem |>.1 rfl
    · omega
  · intro s e
    cases e <;> simp [stepV2]
    rename_i i
    split <;> rfl

def witnessFetchState : FetchStateM :=
  { ctrl := some 0, inFlight := [0], pendingAborted := [], abortedIds := [], nextId := 1 }

theorem fetch_start_aborts_stored_controller_witness :
    (0 ∉ (stepV1 witnessFetchState .start).inFlight ∧
        0 ∈ (stepV1 witnessFetchState .start).abortedIds ∧
        1 ∈ (stepV1 witnessFetchState .start).inFlight) ∧
      (stepV2 initFetchState .start).abortedIds = initFetchState.abortedIds :=
  ⟨fetch_start_aborts_stored_controller.1 witnessFetchState 0 rfl (by decide) (by decide),
    fetch_start_aborts_stored_controller.2 initFetchState .start⟩

/-!
## SpatialCache (bboxCache)

A JS `Map` is an insertion-ordered association list with unique keys;
`set` replaces in place or appends,`get` finds by key.

V1 put (app.js lines 212-221): when `bboxCache.size >= MAX_CACHE_ENTRIES`,
sort the entries by timestamp ascending (JS sort is stable: insertion sort),
delete the keys of the first `Math.floor(MAX_CACHE_ENTRIES / 2)` entries, then
`bboxCache.set(key, { data, timestamp })`.

V2 put (part_000 line 114): `bboxCache.set(key, ...)` with no size management.

Lookup (app.js lines 129-133, part_000 lines 72-77):
`cached && Date.now() - cached.timestamp < CACHE_EXPIRE_TIME`.
-/

structure CacheEntry where
  data : List Fountain
  timestamp : ℤ
deriving DecidableEq

/-- JS `Map.prototype.set`: replace the entry in place if the key exists, else append. -/
def mapSet {κ : Type} [DecidableEq κ] (c : List (κ × CacheEntry)) (k : κ) (v : CacheEntry) :
    List (κ × CacheEntry) :=
  if c.any (fun kv => decide (kv.1 = k)) then
    c.map (fun kv => if kv.1 = k then (k, v) else kv)
  else c ++ [(k, v)]

/-- JS `Map.prototype.get` (as an association-list lookup). -/
def mapGet {κ : Type} [DecidableEq κ] (c : List (κ × CacheEntry)) (k : κ) : Option CacheEntry :=
  (c.find? (fun kv => decide (kv.1 = k))).map Prod.snd

/-- The sort comparator `(a, b) => a[1].timestamp - b[1].timestamp` as a relation. -/
def tsLe {κ : Type} (a b : κ × CacheEntry) : Prop := a.2.timestamp ≤ b.2.timestamp

instance {κ : Type} : DecidableRel (tsLe (κ := κ)) :=
  fun a b => inferInstanceAs (Decidable (a.2.timestamp ≤ b.2.timestamp))

instance {κ : Type} : IsTotal (κ × CacheEntry) tsLe := ⟨fun a b => le_total a.2.timestamp b.2.timestamp⟩

instance {κ : Type} : IsTrans (κ × CacheEntry) tsLe := ⟨fun _ _ _ hab hbc => le_trans hab hbc⟩

def MAX_CACHE_ENTRIES : ℕ := 50

/-- The eviction block of V1's `fetchFountains`: sort by timestamp, take the
first `floor(MAX_CACHE_ENTRIES / 2)` entries, delete their keys. -/
def evictOldest {κ : Type} [DecidableEq κ] (c : List (κ × CacheEntry)) : List (κ × CacheEntry) :=
  let toRemove := (List.insertionSort tsLe c).take (MAX_CACHE_ENTRIES / 2)
  c.filter (fun kv => !(toRemove.any (fun r => decide (r.1 = kv.1))))

/-- V1 cache insertion: evict when at or above the ceiling, then `set`. -/
def putV1 {κ : Type} [DecidableEq κ] (c : List (κ × CacheEntry)) (k : κ) (v : CacheEntry) :
    List (κ × CacheEntry) :=
  mapSet (if MAX_CACHE_ENTRIES ≤ c.length then evictOldest c else c) k v

/-- V2 cache insertion: a bare `set`, no eviction. -/
def putV2 {κ : Type} [DecidableEq κ] (c : List (κ × CacheEntry)) (k : κ) (v : CacheEntry) :
    List (κ × CacheEntry) :=
  mapSet c k v

theorem mapSet_length {κ : Type} [DecidableEq κ] (c : List (κ × CacheEntry)) (k : κ)
    (v : CacheEntry) : (mapSet c k v).length ≤ c.length + 1 := by
  rw [mapSet]
  split
  · rw [List.length_map]; omega
  · rw [List.length_append, List.length_singleton]

theorem evictOldest_length {κ : Type} [DecidableEq κ] {c : List (κ × CacheEntry)}
    (hwf : (c.map Prod.fst).Nodup) (h50 : MAX_CACHE_ENTRIES ≤ c.length) :
    (evictOldest c).length + MAX_CACHE_ENTRIES / 2 ≤ c.length := by
  rw [evictOldest]
  set toRemove := (List.insertionSort tsLe c).take (MAX_CACHE_ENTRIES / 2) with htr
  have hlen : c.length = (c.filter (fun kv => toRemove.any (fun r => decide (r.1 = kv.1)))).length +
      (c.filter (fun kv => !(toRemove.any (fun r => decide (r.1 = kv.1))))).length :=
    List.length_eq_length_filter_add _
  have htrlen : toRemove.length = MAX_CACHE_ENTRIES / 2 := by
    rw [htr, List.length_take, List.length_insertionSort]
    have : MAX_CACHE_ENTRIES / 2 ≤ c.length := le_trans (Nat.div_le_self _ _) h50
    omega
  have hsub : toRemove ⊆ c.filter (fun kv => toRemove.any (fun r => decide (r.1 = kv.1))) := by
    intro r hr
    rw [List.mem_filter]
    refine ⟨?_, ?_⟩
    · have := List.take_subset _ _ hr
      rwa [List.mem_insertionSort] at this
    · rw [List.any_eq_true]
      exact ⟨r, hr, by simp⟩
  have hnd : toRemove.Nodup := by
    have hcnd : c.Nodup := hwf.of_map
    have : (List.insertionSort tsLe c).Nodup := ((List.perm_insertionSort tsLe c).nodup_iff).mpr hcnd
    exact this.sublist (List.take_sublist _ _)
  have hle := (List.subperm_of_subset hnd hsub).length_le
  omega

theorem mapSet_keys_nodup {κ : Type} [DecidableEq κ] {c : List (κ × CacheEntry)} (k : κ)
    (v : CacheEntry) (hwf : (c.map Prod.fst).Nodup) :
    ((mapSet c k v).map Prod.fst).Nodup := by
  rw [mapSet]
  split
  · rename_i hany
    have heq : (c.map (fun kv => if kv.1 = k then (k, v) else kv)).map Prod.fst = c.map Prod.fst := by
      rw [List.map_map]
      refine List.map_congr_left ?_
      intro kv _
      by_cases h : kv.1 = k
      · simp [h]
      · simp [h]
    rwa [heq]
  · rename_i hany
    rw [List.map_append]
    simp only [List.map_cons, List.map_nil]
    rw [List.nodup_append]
    refine ⟨hwf, List.nodup_singleton k, ?_⟩
    intro a ha hb
    rw [List.mem_singleton] at hb
    subst hb
    rw [List.mem_map] at ha
    obtain ⟨kv, hkv, hfst⟩ := ha
    rw [List.any_eq_true] at hany
    exact hany ⟨kv, hkv, by simp [hfst]⟩

theorem evictOldest_keys_nodup {κ : Type} [DecidableEq κ] {c : List (κ × CacheEntry)}
    (hwf : (c.map Prod.fst).Nodup) : ((evictOldest c).map Prod.fst).Nodup := by
  rw [evictOldest]
  exact hwf.sublist ((List.filter_sublist c).map Prod.fst)

theorem putV1_length {κ : Type} [DecidableEq κ] {c : List (κ × CacheEntry)} (k : κ)
    (v : CacheEntry) (hwf : (c.map Prod.fst).Nodup) (hlen : c.length ≤ MAX_CACHE_ENTRIES) :
    (putV1 c k v).length ≤ MAX_CACHE_ENTRIES := by
  rw [putV1]
  split
  · rename_i h50
    have h₁ := evictOldest_length hwf h50
    have h₂ := mapSet_length (evictOldest c) k v
    rw [MAX_CACHE_ENTRIES] at *
    omega
  · rename_i h50
    have h₂ := mapSet_length c k v
    omega

theorem putV1_keys_nodup {κ : Type} [DecidableEq κ] {c : List (κ × CacheEntry)} (k : κ)
    (v : CacheEntry) (hwf : (c.map Prod.fst).Nodup) :
    ((putV1 c k v).map Prod.fst).Nodup := by
  rw [putV1]
  split
  · exact mapSet_keys_nodup k v (evictOldest_keys_nodup hwf)
  · exact mapSet_keys_nodup k v hwf

theorem evictOldest_removes_oldest {κ : Type} [DecidableEq κ] (c : List (κ × CacheEntry)) :
    ∀ r ∈ (List.insertionSort tsLe c).take (MAX_CACHE_ENTRIES / 2), ∀ kv ∈ evictOldest c,
      r.2.timestamp ≤ kv.2.timestamp := by
  intro r hr kv hkv
  rw [evictOldest, List.mem_filter] at hkv
  obtain ⟨hmem, hkeep⟩ := hkv
  set toRemove := (List.insertionSort tsLe c).take (MAX_CACHE_ENTRIES / 2) with htr
  have hnotin : kv ∉ toRemove := by
    intro hin
    rw [Bool.not_eq_true', List.any_eq_false] at hkeep
    have := hkeep kv hin
    simp at this
  have hsorted : (List.insertionSort tsLe c).Sorted tsLe := List.sorted_insertionSort tsLe c
  have hsplit : toRemove ++ (List.insertionSort tsLe c).drop (MAX_CACHE_ENTRIES / 2) =
      List.insertionSort tsLe c := by
    rw [htr]; exact List.take_append_drop _ _
  rw [← hsplit] at hsorted
  have hcross := (List.pairwise_append.mp hsorted).2.2
  have hmem' : kv ∈ List.insertionSort tsLe c := by rwa [List.mem_insertionSort]
  rw [← hsplit, List.mem_append] at hmem'
  rcases hmem' with hin | hdrop
  · exact absurd hin hnotin
  · exact hcross r hr kv hdrop

/-- The invariant together with well-formedness, threaded through any sequence of V1 puts. -/
theorem putsV1_invariant {κ : Type} [DecidableEq κ] (ops : List (κ × CacheEntry)) :
    ∀ c : List (κ × CacheEntry), (c.map Prod.fst).Nodup → c.length ≤ MAX_CACHE_ENTRIES →
      ((ops.foldl (fun acc kv => putV1 acc kv.1 kv.2) c).map Prod.fst).Nodup ∧
        (ops.foldl (fun acc kv => putV1 acc kv.1 kv.2) c).length ≤ MAX_CACHE_ENTRIES := by
  induction ops with
  | nil => intro c hwf hlen; exact ⟨hwf, hlen⟩
  | cons kv rest ih =>
      intro c hwf hlen
      exact ih (putV1 c kv.1 kv.2) (putV1_keys_nodup kv.1 kv.2 hwf) (putV1_length kv.1 kv.2 hwf hlen)

/-- C4 amended (V1 part): in the optimized variant, a put on a well-formed
cache at or above `MAX_CACHE_ENTRIES = 50` first evicts `floor(50/2) = 25`
entries that are oldest by insertion timestamp — every evicted entry's
timestamp is at most every survivor's — and then inserts, so that after any
put (and hence after any sequence of puts starting from the empty cache) the
entry count never exceeds 50. (The part_000 variant — `putV2` — performs no
eviction at all; see the counterexample.) -/
theorem putV1_bounded {κ : Type} [DecidableEq κ] :
    (∀ (c : List (κ × CacheEntry)) (k : κ) (v : CacheEntry),
        (c.map Prod.fst).Nodup → c.length ≤ MAX_CACHE_ENTRIES →
          (putV1 c k v).length ≤ MAX_CACHE_ENTRIES) ∧
      (∀ c : List (κ × CacheEntry),
        ∀ r ∈ (List.insertionSort tsLe c).take (MAX_CACHE_ENTRIES / 2), ∀ kv ∈ evictOldest c,
          r.2.timestamp ≤ kv.2.timestamp) ∧
      ∀ ops : List (κ × CacheEntry),
        (ops.foldl (fun acc kv => putV1 acc kv.1 kv.2) []).length ≤ MAX_CACHE_ENTRIES :=
  ⟨fun _ k v hwf hlen => putV1_length k v hwf hlen,
    evictOldest_removes_oldest,
    fun ops => (putsV1_invariant ops [] (by simp) (by simp [MAX_CACHE_ENTRIES])).2⟩

/-- A 50-entry cache with distinct keys `0..49` and timestamps `0..49`. -/
def cacheAtCeiling : List (ℕ × CacheEntry) :=
  (List.range 50).map (fun i => (i, { data := [], timestamp := (i : ℤ) }))

theorem putV1_bounded_witness :
    (putV1 cacheAtCeiling 50 { data := [], timestamp := 50 }).length ≤ MAX_CACHE_ENTRIES ∧
      ((0 : ℕ), ({ data := [], timestamp := 0 } : CacheEntry)).2.timestamp ≤
        ((25 : ℕ), ({ data := [], timestamp := 25 } : CacheEntry)).2.timestamp ∧
      ([((0 : ℕ), ({ data := [], timestamp := 0 } : CacheEntry))].foldl
          (fun acc kv => putV1 acc kv.1 kv.2) []).length ≤ MAX_CACHE_ENTRIES :=
  ⟨(putV1_bounded.1 cacheAtCeiling 50 { data := [], timestamp := 50 }
      (by decide) (by decide)),
    (putV1_bounded.2.1 cacheAtCeiling (0, { data := [], timestamp := 0 }) (by decide)
      (25, { data := [], timestamp := 25 }) (by decide)),
    (putV1_bounded.2.2 [(0, { data := [], timestamp := 0 })])⟩

/-- C4 counterexample: the part_000 variant's put performs no eviction, so a
put on a cache already holding `MAX_CACHE_ENTRIES = 50` entries leaves 51
entries — the bound fails in that variant, hence not "in both JS variants". -/
theorem putV2_exceeds_ceiling :
    (putV2 cacheAtCeiling 50 { data := [], timestamp := 50 }).length = 51 := by decide

/-- The freshness guard of both variants' viewport handlers. `expire` is
`CACHE_EXPIRE_TIME` (10 min in V1, 5 min in V2). -/
def cacheLookup {κ : Type} [DecidableEq κ] (expire : ℤ) (c : List (κ × CacheEntry)) (k : κ)
    (now : ℤ) : Option (List Fountain) :=
  match mapGet c k with
  | some e => if now - e.timestamp < expire then some e.data else none
  | none => none

theorem find?_map_replace {κ : Type} [DecidableEq κ] (k : κ) (v : CacheEntry)
    (c : List (κ × CacheEntry)) (hany : c.any (fun kv => decide (kv.1 = k)) = true) :
    (c.map (fun kv => if kv.1 = k then (k, v) else kv)).find? (fun kv => decide (kv.1 = k)) =
      some (k, v) := by
  induction c with
  | nil => simp at hany
  | cons kv rest ih =>
      by_cases h : kv.1 = k
      · simp [List.find?, h]
      · have hrest : rest.any (fun kv => decide (kv.1 = k)) = true := by
          simpa [h] using hany
        simpa [List.find?, h] using ih hrest

theorem find?_append_self {κ : Type} [DecidableEq κ] (k : κ) (v : CacheEntry)
    (c : List (κ × CacheEntry)) (hany : c.any (fun kv => decide (kv.1 = k)) = false) :
    (c ++ [(k, v)]).find? (fun kv => decide (kv.1 = k)) = some (k, v) := by
  induction c with
  | nil => simp [List.find?]
  | cons kv rest ih =>
      have h : ¬ kv.1 = k := by
        intro h
        simp [h] at hany
      have hrest : rest.any (fun kv => decide (kv.1 = k)) = false := by
        simpa [h] using hany
      simpa [List.find?, h] using ih hrest

theorem mapGet_mapSet {κ : Type} [DecidableEq κ] (c : List (κ × CacheEntry)) (k : κ)
    (v : CacheEntry) : mapGet (mapSet c k v) k = some v := by
  rw [mapSet]
  split
  · rename_i hany
    rw [mapGet, find?_map_replace k v c hany]
    rfl
  · rename_i hany
    rw [mapGet, find?_append_self k v c (Bool.eq_false_iff.mpr hany)]
    rfl

/-- C5: a cache lookup returns the stored data exactly when an entry is
present and `now - insertedAt < expiryDuration`; in particular a lookup of an
entry inserted at `t0`, performed at `t0 + expire + 1` (one millisecond past
expiry), returns none. -/
theorem cacheLookup_spec {κ : Type} [DecidableEq κ] (expire : ℤ) (c : List (κ × CacheEntry))
    (k : κ) (now : ℤ) :
    (∀ d, cacheLookup expire c k now = some d ↔
        ∃ e, mapGet c k = some e ∧ d = e.data ∧ now - e.timestamp < expire) ∧
      ∀ (c' : List (κ × CacheEntry)) (pts : List Fountain) (t0 : ℤ),
        cacheLookup expire (mapSet c' k { data := pts, timestamp := t0 }) k (t0 + expire + 1) =
          none := by
  constructor
  · intro d
    rcases hm : mapGet c k with _ | e
    · simp [cacheLookup, hm]
    · simp only [cacheLookup, hm]
      split
      · rename_i hfresh
        simp only [Option.some_inj]
        constructor
        · intro hd
          exact ⟨e, rfl, hd.symm, hfresh⟩
        · rintro ⟨e', he', hd, _⟩
          rw [he', hd]
      · rename_i hstale
        constructor
        · intro h
          exact absurd h (by simp)
        · rintro ⟨e', he', _, hfresh⟩
          injection he' with he''
          rw [← he''] at hfresh
          exact absurd hfresh hstale
  · intro c' pts t0
    simp only [cacheLookup, mapGet_mapSet]
    rw [if_neg (by omega)]

theorem cacheLookup_spec_witness :
    cacheLookup (10 * 60 * 1000) (mapSet ([] : List (ℕ × CacheEntry)) 7
        { data := [], timestamp := 0 }) 7 (0 + 10 * 60 * 1000 + 1) = none :=
  (cacheLookup_spec (10 * 60 * 1000) ([] : List (ℕ × CacheEntry)) 7 0).2 [] [] 0

/-!
## Application state and the fetch completion handler

`AppState` gathers the shared mutable state the fetch activity writes:
`window._fountains`, `bboxCache`, the notifications shown so far, and
V1's `lastFetchBounds`. Cache keys are the quantized bounding-box tuples
(the JS code joins them into a string with `toFixed`; distinct tuples give
distinct strings, so the tuple is the faithful key).
-/

structure Bounds where
  south : ℚ
  west : ℚ
  north : ℚ
  east : ℚ
deriving DecidableEq

abbrev BKey : Type := ℤ × ℤ × ℤ × ℤ

structure AppState where
  fountains : List Fountain
  cache : List (BKey × CacheEntry)
  notifications : List String
  lastFetchBounds : Option Bounds
deriving DecidableEq

/-- Transcribes `getMaxMarkersForZoom` (app.js lines 304-309). -/
def getMaxMarkersForZoom (zoom : ℤ) : ℕ :=
  if zoom < 12 then 50 else if zoom < 15 then 200 else if zoom < 17 then 500 else 1000

/-- V1 `renderMarkers` (app.js lines 238-244): truncate to the zoom-dependent
maximum and publish as `window._fountains`. -/
def renderMarkersV1 (zoom : ℤ) (st : AppState) (elements : List Fountain) : AppState :=
  { st with fountains := elements.take (getMaxMarkersForZoom zoom) }

/-- V2 `renderMarkers` (part_000 lines 123-125): publish the whole list. -/
def renderMarkersV2 (st : AppState) (elements : List Fountain) : AppState :=
  { st with fountains := elements }

def bboxErrorMsg : String := "Failed to load water sources in this area. Please try again."

inductive FetchOutcome where
  | success (elements : List Fountain)
  | abortError
  | failure
deriving DecidableEq

/-- V1 `fetchFountains` from the point the request settles (app.js lines
209-234): on success run cache eviction/insertion then `renderMarkers`; on
`AbortError` just log and return; on any other error show the notification.
The `finally` block only touches the loading indicator and the controller. -/
def fetchFountainsCompleteV1 (zoom : ℤ) (key : BKey) (now : ℤ) (st : AppState) :
    FetchOutcome → AppState
  | .success elements =>
      renderMarkersV1 zoom
        { st with cache := putV1 st.cache key { data := elements, timestamp := now } } elements
  | .abortError => st
  | .failure => { st with notifications := st.notifications ++ [bboxErrorMsg] }

inductive FetchOutcomeV2 where
  | success (elements : List Fountain)
  | failure
deriving DecidableEq

/-- V2 `fetchFountains` from the point the request settles (part_000 lines
112-119); this variant has no AbortController, hence no cancellation outcome. -/
def fetchFountainsCompleteV2 (key : BKey) (now : ℤ) (st : AppState) :
    FetchOutcomeV2 → AppState
  | .success elements =>
      renderMarkersV2
        { st with cache := putV2 st.cache key { data := elements, timestamp := now } } elements
  | .failure => { st with notifications := st.notifications ++ [bboxErrorMsg] }

/-- C7: a fetch that ends in cancellation performs no further action at all
(the state — published set, cache, notifications — is untouched); a fetch that
ends in any other failure appends exactly one user-visible error notification
and leaves the published current set and the cache unchanged, in both
variants. -/
theorem fetch_failure_leaves_state (zoom : ℤ) (key : BKey) (now : ℤ) (st : AppState) :
    fetchFountainsCompleteV1 zoom key now st .abortError = st ∧
      ((fetchFountainsCompleteV1 zoom key now st .failure).fountains = st.fountains ∧
        (fetchFountainsCompleteV1 zoom key now st .failure).cache = st.cache ∧
        (fetchFountainsCompleteV1 zoom key now st .failure).notifications =
          st.notifications ++ [bboxErrorMsg]) ∧
      ((fetchFountainsCompleteV2 key now st .failure).fountains = st.fountains ∧
        (fetchFountainsCompleteV2 key now st .failure).cache = st.cache ∧
        (fetchFountainsCompleteV2 key now st .failure).notifications =
          st.notifications ++ [bboxErrorMsg]) :=
  ⟨rfl, ⟨rfl, rfl, rfl⟩, rfl, rfl, rfl⟩

/-!
## Viewport fetch controller (moveend handlers)

V1 (app.js lines 103-145): on `moveend`, read the zoom; below
`MIN_ZOOM_FOR_FETCH` clear the pending debounce timer and return; otherwise
re-arm the timer with a zoom-dependent delay. When the timer fires: skip if
the bounds overlap the last fetched bounds significantly; else build the
1-decimal quantized key; serve from a fresh cache entry; else skip if the area
exceeds 100; else call `fetchFountains`.

V2 (part_000 lines 63-79): on `moveend`, always re-arm a 500 ms timer — there
is no zoom threshold; when it fires, build the 3-decimal key, serve from a
fresh cache entry, else call `fetchFountains`.
-/

def MIN_ZOOM_FOR_FETCH : ℤ := 10

/-- Transcribes `getDelayForZoom` (app.js lines 73-77). -/
def getDelayForZoom (zoom : ℤ) : ℕ :=
  if zoom < 12 then 2000 else if zoom < 15 then 1000 else 500

def CACHE_EXPIRE_TIME_V1 : ℤ := 10 * 60 * 1000
def CACHE_EXPIRE_TIME_V2 : ℤ := 5 * 60 * 1000

/-- JS `Number.prototype.toFixed(digits)` as an integer: round half toward
positive infinity at `digits` decimals (the JS tie rule picks the larger
candidate). Equal tuples of rounded integers correspond to equal key strings. -/
def quantize (digits : ℕ) (x : ℚ) : ℤ := round (x * (10 : ℚ) ^ digits)

def bkey (digits : ℕ) (b : Bounds) : BKey :=
  (quantize digits b.south, quantize digits b.west, quantize digits b.north, quantize digits b.east)

def area (b : Bounds) : ℚ := (b.north - b.south) * (b.east - b.west)

/-- Transcribes `boundsOverlapSignificantly` (app.js lines 80-101). Leaflet's
`L.latLngBounds([[lat1, lng1], [lat2, lng2]])` normalizes its corners
(southwest gets the min latitude/longitude), and `isValid()` is then always
true for a bounds built from two corners, so the transcription normalizes with
min/max and has no early-invalid return. -/
def boundsOverlapSignificantly (bounds1 : Option Bounds) (bounds2 : Bounds) : Bool :=
  match bounds1 with
  | none => false
  | some b1 =>
    let area1 := area b1
    let area2 := area bounds2
    if area1 * 4 < area2 then false
    else
      let cornerLatA := max b1.south bounds2.south
      let cornerLngA := max b1.west bounds2.west
      let cornerLatB := min b1.north bounds2.north
      let cornerLngB := min b1.east bounds2.east
      let intersectionArea :=
        (max cornerLatA cornerLatB - min cornerLatA cornerLatB) *
          (max cornerLngA cornerLngB - min cornerLngA cornerLngB)
      decide (min area1 area2 * (7 / 10) < intersectionArea)

/-- The `moveend` handler's synchronous part in V1: the timer it leaves armed
(`none` = no pending debounce timer). -/
def moveendTimerV1 (zoom : ℤ) : Option ℕ :=
  if zoom < MIN_ZOOM_FOR_FETCH then none else some (getDelayForZoom zoom)

/-- The `moveend` handler's synchronous part in V2: always re-arms 500 ms. -/
def moveendTimerV2 : Option ℕ := some 500

/-- V1's debounce callback: `some key` iff it reaches `fetchFountains`. -/
def fireTimerV1 (st : AppState) (b : Bounds) (now : ℤ) : Option BKey :=
  if boundsOverlapSignificantly st.lastFetchBounds b then none
  else
    let key := bkey 1 b
    match cacheLookup CACHE_EXPIRE_TIME_V1 st.cache key now with
    | some _ => none
    | none => if (100 : ℚ) < area b then none else some key

/-- V2's debounce callback: `some key` iff it reaches `fetchFountains`. -/
def fireTimerV2 (st : AppState) (b : Bounds) (now : ℤ) : Option BKey :=
  let key := bkey 3 b
  match cacheLookup CACHE_EXPIRE_TIME_V2 st.cache key now with
  | some _ => none
  | none => some key

/-- The network fetch (if any) a single V1 `moveend` event can lead to. -/
def fetchFromMoveendV1 (zoom : ℤ) (st : AppState) (b : Bounds) (now : ℤ) : Option BKey :=
  match moveendTimerV1 zoom with
  | none => none
  | some _ => fireTimerV1 st b now

/-- The network fetch (if any) a single V2 `moveend` event can lead to. -/
def fetchFromMoveendV2 (st : AppState) (b : Bounds) (now : ℤ) : Option BKey :=
  match moveendTimerV2 with
  | none => none
  | some _ => fireTimerV2 st b now

/-- C8 amended: in the optimized variant (app.js) a `moveend` with zoom below
`MIN_ZOOM_FOR_FETCH = 10` cancels any pending debounce timer (leaves none
armed) and can never lead to a network fetch; the part_000 variant has no such
threshold (see the counterexample). -/
theorem moveend_low_zoom_no_fetch (zoom : ℤ) (st : AppState) (b : Bounds) (now : ℤ)
    (hz : zoom < MIN_ZOOM_FOR_FETCH) :
    moveendTimerV1 zoom = none ∧ fetchFromMoveendV1 zoom st b now = none := by
  have ht : moveendTimerV1 zoom = none := by rw [moveendTimerV1, if_pos hz]
  exact ⟨ht, by rw [fetchFromMoveendV1, ht]⟩

def emptyAppState : AppState :=
  { fountains := [], cache := [], notifications := [], lastFetchBounds := none }

theorem moveend_low_zoom_no_fetch_witness :
    moveendTimerV1 3 = none ∧
      fetchFromMoveendV1 3 emptyAppState { south := 0, west := 0, north := 1, east := 1 } 0 =
        none :=
  moveend_low_zoom_no_fetch 3 emptyAppState { south := 0, west := 0, north := 1, east := 1 } 0
    (by decide)

/-- C8 counterexample: in the part_000 variant a `moveend` at zoom 3 (far
below the optimized variant's threshold) leaves the 500 ms debounce timer
armed, and — with an empty cache — its callback does issue a network fetch. -/
theorem moveend_low_zoom_fetches_v2 :
    (3 : ℤ) < MIN_ZOOM_FOR_FETCH ∧
      moveendTimerV2 = some 500 ∧
      fetchFromMoveendV2 emptyAppState { south := 0, west := 0, north := 1, east := 1 } 0 =
        some (bkey 3 { south := 0, west := 0, north := 1, east := 1 }) := by
  refine ⟨by decide, rfl, rfl⟩

/-!
## HeadingTracker (deviceOrientationHandler, app.js lines 475-497,
identically part_000 lines 295-317)

`absolute`, `alpha`, `webkitCompassHeading` are each possibly absent
(`undefined`) or `null`; `Option` collapses both, and `absolute === true`
is `= some true`.
-/

structure OrientationEvent where
  absolute : Option Bool
  alpha : Option ℚ
  webkitCompassHeading : Option ℚ
deriving DecidableEq

def deviceOrientationHandler (heading : ℚ) (event : OrientationEvent) : ℚ :=
  match event.absolute, event.alpha with
  | some true, some a => a
  | _, _ =>
    match event.webkitCompassHeading with
    | some w => w
    | none =>
      match event.alpha with
      | some a => a
      | none => heading

/-- The `currentHeading` value after a stream of orientation events (initially `0`). -/
def currentHeadingAfter (events : List OrientationEvent) : ℚ :=
  events.foldl deviceOrientationHandler 0

/-- C9: the heading tracker resolves each orientation event by precedence —
an absolute reading (`absolute === true` with non-null `alpha`) first, else a
`webkitCompassHeading` reading if present, else a raw non-absolute `alpha`;
events with neither reading leave the heading unchanged, and the heading is 0
before any sample arrives. -/
theorem heading_precedence (heading : ℚ) (event : OrientationEvent) :
    (∀ a, event.absolute = some true → event.alpha = some a →
        deviceOrientationHandler heading event = a) ∧
      (∀ w, (event.absolute ≠ some true ∨ event.alpha = none) →
        event.webkitCompassHeading = some w → deviceOrientationHandler heading event = w) ∧
      (∀ a, event.absolute ≠ some true → event.webkitCompassHeading = none →
        event.alpha = some a → deviceOrientationHandler heading event = a) ∧
      (event.alpha = none → event.webkitCompassHeading = none →
        deviceOrientationHandler heading event = heading) ∧
      currentHeadingAfter [] = 0 := by
  obtain ⟨abs, al, web⟩ := event
  refine ⟨?_, ?_, ?_, ?_, rfl⟩
  · intro a habs hal
    simp only at habs hal
    subst habs; subst hal
    rfl
  · intro w hprec hweb
    simp only at hweb
    subst hweb
    rcases abs with _ | b
    · rfl
    · rcases b with _ | _
      · rfl
      · rcases al with _ | a
        · rfl
        · simp only at hprec
          rcases hprec with h | h
          · exact absurd rfl h
          · exact absurd h (by simp)
  · intro a habs hweb hal
    simp only at hweb hal
    subst hweb; subst hal
    rcases abs with _ | b
    · rfl
    · rcases b with _ | _
      · rfl
      · exact absurd rfl habs
  · intro hal hweb
    simp only at hal hweb
    subst hal; subst hweb
    rcases abs with _ | b
    · rfl
    · rcases b with _ | _ <;> rfl

theorem heading_precedence_witness :
    deviceOrientationHandler 0
        { absolute := some true, alpha := some 42, webkitCompassHeading := some 7 } = 42 :=
  (heading_precedence 0
      { absolute := some true, alpha := some 42, webkitCompassHeading := some 7 }).1
    42 rfl rfl

/-!
## Published set truncation and the AR frame (C10)
-/

/-- The `arInfo` status line computed at the end of `drawAR`
(app.js lines 632-642). -/
inductive ARStatus where
  | nearest (dist : ℚ) (name : String)
  | noneInView (total : ℕ)
  | noneFound
deriving DecidableEq

def drawARStatus (markers : List ARMarker) (fountains : List Fountain) : ARStatus :=
  match markers with
  | m :: _ => .nearest m.dist m.name
  | [] => if fountains.length > 0 then .noneInView fountains.length else .noneFound

/-- One AR frame: `drawAR` reads `window._fountains` from the shared state and
produces the rendered markers plus the status line. -/
def drawARFrame (distTo bearingTo : ℚ × ℚ → ℚ) (heading : ℚ) (st : AppState) :
    List ARMarker × ARStatus :=
  (arFountains distTo bearingTo heading st.fountains,
    drawARStatus (arFountains distTo bearingTo heading st.fountains) st.fountains)

/-- C10: after a successful render, `window._fountains` is the fetch result
truncated to `getMaxMarkersForZoom zoom` elements (hence never more than
1000), and the AR projector — markers and out-of-view count alike — operates
on exactly this truncated set. -/
theorem render_truncates_published_set (zoom : ℤ) (st : AppState) (elements : List Fountain)
    (distTo bearingTo : ℚ × ℚ → ℚ) (heading : ℚ) :
    (renderMarkersV1 zoom st elements).fountains = elements.take (getMaxMarkersForZoom zoom) ∧
      (renderMarkersV1 zoom st elements).fountains.length ≤ getMaxMarkersForZoom zoom ∧
      getMaxMarkersForZoom zoom ≤ 1000 ∧
      (renderMarkersV1 zoom st elements).fountains.length ≤ 1000 ∧
      drawARFrame distTo bearingTo heading (renderMarkersV1 zoom st elements) =
        (arFountains distTo bearingTo heading (elements.take (getMaxMarkersForZoom zoom)),
          drawARStatus
            (arFountains distTo bearingTo heading (elements.take (getMaxMarkersForZoom zoom)))
            (elements.take (getMaxMarkersForZoom zoom))) := by
  have hmax : getMaxMarkersForZoom zoom ≤ 1000 := by
    rw [getMaxMarkersForZoom]
    split
    · omega
    · split
      · omega
      · split <;> omega
  have hlen : (renderMarkersV1 zoom st elements).fountains.length ≤ getMaxMarkersForZoom zoom := by
    rw [renderMarkersV1]
    simp only [List.length_take]
    omega
  exact ⟨rfl, hlen, hmax, le_trans hlen hmax, rfl⟩

end Water
